import Mathlib

/-!
# Glautomata — a shallow embedding of the Game of Life core

This file embeds the simulation core of `src/src/glautomata.cpp` (the grid
state encoded in a vertex buffer, the neighbour-counting rule, and the
double-buffered generation step) and proves properties of it.

Modelling conventions, justified against the source:

* `glm::vec2` cell coordinates are modelled as `Int × Int`.  Every call site
  passes integer-valued coordinates of magnitude at most `gridSize` (= 250),
  a range on which single-precision float arithmetic used by the source
  (`position.x * gridSize + position.y`, multiplied by `nVertices = 4`) is
  exact, so integer arithmetic is a faithful model.
* `glm::vec3` colours are modelled as a triple of rationals (`Vec3`).  The
  only colours the program ever writes are `colourBlack = (0,0,0)` and
  `colourWhite = (1,1,1)`, both exactly representable, and the only
  operation on colours is exact equality comparison, so rationals are a
  faithful model of the floats.
* `std::vector<Vertex>` buffers are modelled as `List Vertex`.
* The flat index `((x * gridSize) + y) * 4` is computed by the source in
  float and converted to `uint32_t`.  `GetCellState` guards
  `x >= 0 && y >= 0` first, so the converted value is the non-negative
  integer `((x * n) + y) * 4`, modelled with `Int.toNat`.  `SetCellState`
  has no such guard; for a negative index value the C++ float-to-unsigned
  conversion is undefined behaviour, so the source gives NO guarantee
  about that path (concrete targets even disagree: an x86-64 build wraps
  to a huge index and writes nothing, while an aarch64 build saturates
  the conversion to 0 and overwrites cell (0, 0)).  The definition
  `setCellState` picks the no-op resolution arbitrarily so as to stay a
  total function, but no theorem in this file asserts anything about the
  negative-index branch: every proved statement about writes uses only
  coordinates whose index value is non-negative, where the C++ behaviour
  is fully defined and the model is exact.
* `std::rand` / `std::srand` are modelled by an explicit generator state
  (`Nat`) threaded through `GenerateRandomCells`, parametrised by an
  arbitrary transition function `step : Nat → Nat × Nat` returning the
  drawn value and the next state.  `std::srand(t)` is the assignment of
  `t` to the generator state; `std::time(nullptr)` is a parameter
  `timeNow`.
* The gridSize is a global constant (250) in the source; the definitions
  here take it as an explicit parameter `n` so that theorems quantify over
  the configuration constant, and concrete evaluations instantiate
  `n = gridSize = 250`.
-/

namespace Glautomata

/-- Window size in pixels; the window is always square (source line 37). -/
def windowSize : Nat := 1000

/-- The grid dimension constant of the program (source line 38). -/
def gridSize : Nat := 250

/-- Size of a rendered cell: `windowSize / gridSize` computed in float;
for the program's constants this is exactly 4. -/
def cellSize (n : Nat) : Rat := (windowSize : Rat) / (n : Rat)

/-- Cell state enum (source lines 57-60): `DEAD = 0`, `ALIVE = 1`. -/
inductive State where
  | DEAD
  | ALIVE
  deriving DecidableEq, Repr

/-- An RGB colour, modelling `glm::vec3` (exact values only). -/
structure Vec3 where
  x : Rat
  y : Rat
  z : Rat
  deriving DecidableEq, Repr

/-- A vertex: 2D position and colour attribute (source lines 46-50). -/
structure Vertex where
  position : Rat × Rat
  colour : Vec3
  deriving DecidableEq, Repr

/-- A logical cell: grid coordinate and state (source lines 62-70). -/
structure Cell where
  position : Int × Int
  state : State
  deriving DecidableEq, Repr

def colourBlack : Vec3 := ⟨0, 0, 0⟩

def colourWhite : Vec3 := ⟨1, 1, 1⟩

/-- The colour a cell state is rendered with:
`static_cast<bool>(cell.state) ? colourWhite : colourBlack`. -/
def cellColour : State → Vec3
  | .ALIVE => colourWhite
  | .DEAD => colourBlack

/-- `CreateCell` (source lines 539-561): four vertices forming a quad, all
carrying the colour of the cell's state. -/
def createCell (n : Nat) (cell : Cell) : List Vertex :=
  let c := cellColour cell.state
  let px : Rat := (cell.position.1 : Rat) * cellSize n
  let py : Rat := (cell.position.2 : Rat) * cellSize n
  [ ⟨(px, py), c⟩,
    ⟨(px + cellSize n, py), c⟩,
    ⟨(px + cellSize n, py + cellSize n), c⟩,
    ⟨(px, py + cellSize n), c⟩ ]

/-- `GetCellState` (source lines 563-581).  Guards `x ≥ 0 ∧ y ≥ 0`, then
reads the colour of the first vertex of the cell at flat index
`((x * n) + y) * 4`, provided that index is inside the buffer.  The
source's guarded `buffer.at(index)` is modelled by the `get?` match:
`some` exactly when `index < buffer.length`. -/
def getCellState (n : Nat) (buffer : List Vertex) (position : Int × Int) : State :=
  if 0 ≤ position.1 ∧ 0 ≤ position.2 then
    match buffer.get? (((position.1 * n + position.2) * 4).toNat) with
    | some v => if v.colour = colourWhite then State.ALIVE else State.DEAD
    | none => State.DEAD
  else State.DEAD

/-- The write loop of `SetCellState`: overwrite the colour of the four
vertices at indices `i, i+1, i+2, i+3`.  (`List.set` past the end is a
no-op, whereas the corresponding C++ `buffer.at` would throw; every use
proved about below stays within bounds.) -/
def writeQuad (buffer : List Vertex) (i : Nat) (c : Vec3) : List Vertex :=
  (List.range 4).foldl
    (fun b j => b.set (i + j) { b.getD (i + j) ⟨(0, 0), colourBlack⟩ with colour := c })
    buffer

/-- `SetCellState` (source lines 583-596).  Computes the flat index with no
sign guard and writes the quad when `index < buffer.size()`.  A negative
index value is undefined behaviour in the source (float → unsigned
conversion); modelled as a no-op, see the module docstring. -/
def setCellState (n : Nat) (buffer : List Vertex) (cell : Cell) : List Vertex :=
  if 0 ≤ (cell.position.1 * n + cell.position.2) * 4
      ∧ ((cell.position.1 * n + cell.position.2) * 4).toNat < buffer.length then
    writeQuad buffer ((cell.position.1 * n + cell.position.2) * 4).toNat
      (cellColour cell.state)
  else buffer

/-- Neighbour counting loop of `GameOfLife` (source lines 621-638): iterate
offsets -1..1 in both axes, skip (0,0), count neighbours read as ALIVE. -/
def countAliveNeighbours (n : Nat) (buffer : List Vertex) (x y : Int) : Nat :=
  [-1, 0, 1].foldl
    (fun acc nX =>
      [-1, 0, 1].foldl
        (fun acc2 nY =>
          if nX ≠ 0 ∨ nY ≠ 0 then
            if getCellState n buffer (x + nX, y + nY) = State.ALIVE then acc2 + 1
            else acc2
          else acc2)
        acc)
    (0 : Nat)

/-- The state-transition switch of `GameOfLife` (source lines 640-658),
including the initialisation `newCellState = currentCellState` that the
final `else` branch falls back to. -/
def nextState (currentCellState : State) (nAliveNeighbours : Nat) : State :=
  match currentCellState with
  | .ALIVE =>
    if nAliveNeighbours < 2 ∨ 3 < nAliveNeighbours then State.DEAD
    else if nAliveNeighbours = 2 ∨ nAliveNeighbours = 3 then State.ALIVE
    else State.ALIVE
  | .DEAD =>
    if nAliveNeighbours = 3 then State.ALIVE
    else State.DEAD

/-- `GameOfLife` (source lines 611-667): for every coordinate in raster
order (x outer, y inner), read the old buffer, decide the new state, and
append the new cell's quad to a fresh buffer, which finally replaces the
old one (the returned list). -/
def gameOfLife (n : Nat) (buffer : List Vertex) : List Vertex :=
  (List.range n).flatMap (fun cellPosX =>
    (List.range n).flatMap (fun cellPosY =>
      createCell n
        ⟨((cellPosX : Int), (cellPosY : Int)),
         nextState (getCellState n buffer ((cellPosX : Int), (cellPosY : Int)))
           (countAliveNeighbours n buffer (cellPosX : Int) (cellPosY : Int))⟩))

/-- The cell state drawn from one `rand()` value:
`rand() % 2 ? State::ALIVE : State::DEAD`. -/
def randCellState (v : Nat) : State :=
  if v % 2 ≠ 0 then State.ALIVE else State.DEAD

/-- `GenerateRandomCells` (source lines 598-609).  The C standard library
generator is modelled by an explicit state (`Nat`) with an arbitrary
transition `step` returning the drawn value and the successor state.  The
function receives the process's generator state `rngState`, but its first
action is `std::srand(std::time(nullptr))`, modelled by starting the fold
from `timeNow` — the incoming state is discarded, i.e. the generator is
RE-seeded on every call.  Cells are drawn in raster order (x outer, y
inner) and appended to `buffer`. -/
def generateRandomCells (step : Nat → Nat × Nat) (timeNow : Nat) (n : Nat)
    (buffer : List Vertex) (rngState : Nat) : List Vertex × Nat :=
  (List.range n).foldl
    (fun (acc : List Vertex × Nat) (x : Nat) =>
      (List.range n).foldl
        (fun (acc2 : List Vertex × Nat) (y : Nat) =>
          (acc2.1 ++ createCell n ⟨((x : Int), (y : Int)), randCellState (step acc2.2).1⟩,
           (step acc2.2).2))
        acc)
    (buffer, timeNow)

/-- `RestartGame` (source lines 669-673):
`buffer.erase(buffer.begin(), buffer.end())` empties the buffer, then
`GenerateRandomCells` repopulates it, so the result is generated on top of
the empty list whatever `buffer` held. -/
def restartGame (step : Nat → Nat × Nat) (timeNow : Nat) (n : Nat)
    (buffer : List Vertex) (rngState : Nat) : List Vertex × Nat :=
  generateRandomCells step timeNow n [] rngState

/-- A buffer laid out exactly the way every producing loop of the source
lays it out: cells in raster order (x outer, y inner), four vertices per
cell, cell `(x, y)` holding state `f x y`. -/
def buildGrid (n : Nat) (f : Nat → Nat → State) : List Vertex :=
  (List.range n).flatMap (fun x =>
    (List.range n).flatMap (fun y =>
      createCell n ⟨((x : Int), (y : Int)), f x y⟩))

/-- The Game of Life rule exactly as the specification words it (§4.2,
step 2), for comparison with the source's switch statement. -/
def specLifeRule (current : State) (nAlive : Nat) : State :=
  match current with
  | .ALIVE => if nAlive = 2 ∨ nAlive = 3 then State.ALIVE else State.DEAD
  | .DEAD => if nAlive = 3 then State.ALIVE else State.DEAD

/-- Generator state after `k` draws from state `s`. -/
def randState (step : Nat → Nat × Nat) (s : Nat) : Nat → Nat
  | 0 => s
  | k + 1 => (step (randState step s k)).2

/-- The `k`-th value drawn from state `s` (0-based). -/
def randVal (step : Nat → Nat × Nat) (s k : Nat) : Nat :=
  (step (randState step s k)).1

/-- State function of a horizontal 3-cell blinker centred at `(cx, cy)`:
cells `(cx-1, cy)`, `(cx, cy)`, `(cx+1, cy)` are ALIVE, all others DEAD. -/
def blinkerHState (cx cy x y : Nat) : State :=
  if y = cy ∧ (x = cx - 1 ∨ x = cx ∨ x = cx + 1) then State.ALIVE else State.DEAD

/-- State function of a vertical 3-cell blinker centred at `(cx, cy)`. -/
def blinkerVState (cx cy x y : Nat) : State :=
  if x = cx ∧ (y = cy - 1 ∨ y = cy ∨ y = cy + 1) then State.ALIVE else State.DEAD

/-- The grid buffer holding exactly a horizontal blinker. -/
def blinkerHGrid (n cx cy : Nat) : List Vertex := buildGrid n (blinkerHState cx cy)

/-- The grid buffer holding exactly a vertical blinker. -/
def blinkerVGrid (n cx cy : Nat) : List Vertex := buildGrid n (blinkerVState cx cy)

theorem gameOfLife_eq_buildGrid (n : Nat) (buffer : List Vertex) :
    gameOfLife n buffer
      = buildGrid n (fun x y =>
          nextState (getCellState n buffer ((x : Int), (y : Int)))
            (countAliveNeighbours n buffer (x : Int) (y : Int))) := rfl

theorem createCell_length (n : Nat) (c : Cell) : (createCell n c).length = 4 := rfl

/-- Length of a flat-map over `List.range` with constant block length. -/
theorem range_flatMap_length {β : Type} (g : Nat → List β) (k : Nat) :
    ∀ m : Nat, (∀ i, i < m → (g i).length = k) →
      ((List.range m).flatMap g).length = m * k := by
  intro m
  induction m with
  | zero => intro _; simp
  | succ m ih =>
    intro h
    rw [List.range_succ, List.flatMap_append]
    rw [List.length_append, ih (fun i hi => h i (Nat.lt_succ_of_lt hi))]
    simp [h m (Nat.lt_succ_self m), Nat.succ_mul]

/-- Indexing into a flat-map over `List.range` with constant block length:
position `i * k + j` falls in block `i` at offset `j`. -/
theorem range_flatMap_get? {β : Type} (g : Nat → List β) (k : Nat) :
    ∀ (m i j : Nat), (∀ t, t < m → (g t).length = k) → i < m → j < k →
      ((List.range m).flatMap g).get? (i * k + j) = (g i).get? j := by
  intro m
  induction m with
  | zero => intro i j _ hi _; exact absurd hi (Nat.not_lt_zero i)
  | succ m ih =>
    intro i j hk hi hj
    rw [List.range_succ, List.flatMap_append]
    rcases Nat.lt_or_ge i m with him | him
    · have hlen : ((List.range m).flatMap g).length = m * k :=
        range_flatMap_length g k m (fun t ht => hk t (Nat.lt_succ_of_lt ht))
      have hidx : i * k + j < m * k := by
        calc i * k + j < i * k + k := by omega
        _ = (i + 1) * k := by rw [Nat.succ_mul]
        _ ≤ m * k := Nat.mul_le_mul_right k him
      rw [List.get?_append (by rw [hlen]; exact hidx)]
      exact ih i j (fun t ht => hk t (Nat.lt_succ_of_lt ht)) him hj
    · have hieq : i = m := by omega
      subst hieq
      have hlen : ((List.range i).flatMap g).length = i * k :=
        range_flatMap_length g k i (fun t ht => hk t (Nat.lt_succ_of_lt ht))
      rw [List.get?_append_right (by rw [hlen]; omega)]
      rw [hlen]
      have h2 : i * k + j - i * k = j := by omega
      rw [h2]
      simp

/-- Total length of a grid buffer: `n * n` cells of 4 vertices. -/
theorem buildGrid_length (n : Nat) (f : Nat → Nat → State) :
    (buildGrid n f).length = n * n * 4 := by
  unfold buildGrid
  rw [range_flatMap_length _ (n * 4) n
    (fun i _ => range_flatMap_length _ 4 n (fun t _ => createCell_length n _))]
  ring

/-- The vertex at flat position `(x * n + y) * 4 + j` of the grid buffer is
vertex `j` of the quad of cell `(x, y)`. -/
theorem buildGrid_get? (n : Nat) (f : Nat → Nat → State) (x y j : Nat)
    (hx : x < n) (hy : y < n) (hj : j < 4) :
    (buildGrid n f).get? ((x * n + y) * 4 + j)
      = (createCell n ⟨((x : Int), (y : Int)), f x y⟩).get? j := by
  unfold buildGrid
  have hidx : (x * n + y) * 4 + j = x * (n * 4) + (y * 4 + j) := by ring
  rw [hidx]
  rw [range_flatMap_get? _ (n * 4) n x (y * 4 + j)
    (fun t _ => range_flatMap_length _ 4 n (fun s _ => createCell_length n _))
    hx (by omega)]
  exact range_flatMap_get? _ 4 n y j (fun t _ => createCell_length n _) hy hj

theorem cellColour_eq_white_iff (s : State) : cellColour s = colourWhite ↔ s = State.ALIVE := by
  cases s <;> decide

/-- A read at a coordinate with a negative component returns DEAD for any
buffer: the `x >= 0 && y >= 0` guard. -/
theorem getCellState_neg (n : Nat) (buffer : List Vertex) (p : Int × Int)
    (h : p.1 < 0 ∨ p.2 < 0) : getCellState n buffer p = State.DEAD := by
  simp only [getCellState]
  rw [if_neg (by omega)]

/-- A read whose flat index value reaches past the buffer returns DEAD:
the `index < buffer.size()` guard. -/
theorem getCellState_of_len_le (n : Nat) (buffer : List Vertex) (p : Int × Int)
    (h1 : 0 ≤ p.1) (h2 : 0 ≤ p.2)
    (hlen : (buffer.length : Int) ≤ (p.1 * n + p.2) * 4) :
    getCellState n buffer p = State.DEAD := by
  simp only [getCellState]
  rw [if_pos ⟨h1, h2⟩]
  have hnone : buffer.get? (((p.1 * n + p.2) * 4).toNat) = none := by
    rw [List.get?_eq_none]
    omega
  rw [hnone]

/-- Central read lemma: a read on a grid buffer whose flat index value
equals the flat index of cell `(x, y)` returns that cell's state — whether
or not the coordinate itself is in bounds.  (The source checks only the
flat index against the buffer size, so distinct coordinates with equal
flat indices alias each other.) -/
theorem getCellState_buildGrid_flat (n : Nat) (f : Nat → Nat → State) (x y : Nat)
    (p : Int × Int) (hx : x < n) (hy : y < n) (h1 : 0 ≤ p.1) (h2 : 0 ≤ p.2)
    (hidx : (p.1 * n + p.2) * 4 = (((x * n + y) * 4 : Nat) : Int)) :
    getCellState n (buildGrid n f) p = f x y := by
  simp only [getCellState]
  rw [if_pos ⟨h1, h2⟩]
  rw [hidx, Int.toNat_natCast]
  have hg : (buildGrid n f).get? ((x * n + y) * 4)
      = (createCell n ⟨((x : Int), (y : Int)), f x y⟩).get? 0 := by
    have h := buildGrid_get? n f x y 0 hx hy (by omega)
    simpa using h
  rw [hg]
  simp only [createCell, List.get?]
  rcases hfa : f x y with _ | _ <;> simp [cellColour, colourWhite, colourBlack]

/-- Reading an in-range coordinate of a grid buffer returns its state. -/
theorem getCellState_buildGrid (n : Nat) (f : Nat → Nat → State) (x y : Nat)
    (hx : x < n) (hy : y < n) :
    getCellState n (buildGrid n f) ((x : Int), (y : Int)) = f x y := by
  apply getCellState_buildGrid_flat n f x y _ hx hy (by positivity) (by positivity)
  push_cast
  ring

/-- The wraparound defect: the out-of-bounds coordinate `(a, n)` (one row
below the bottom of the grid) reads the state of cell `(a + 1, 0)` — the
top of the NEXT column — because only the flat index is bounds-checked. -/
theorem getCellState_buildGrid_alias (n : Nat) (f : Nat → Nat → State) (a : Nat)
    (ha : a + 1 < n) :
    getCellState n (buildGrid n f) ((a : Int), (n : Int)) = f (a + 1) 0 := by
  apply getCellState_buildGrid_flat n f (a + 1) 0 _ ha (by omega) (by positivity) (by positivity)
  push_cast
  ring

/-- Reading at `x ≥ n` (with `y ≥ 0`) on a grid buffer returns DEAD: the
flat index is at least `n * n * 4`. -/
theorem getCellState_buildGrid_xhigh (n : Nat) (f : Nat → Nat → State)
    (p : Int × Int) (h1 : (n : Int) ≤ p.1) (h2 : 0 ≤ p.2) :
    getCellState n (buildGrid n f) p = State.DEAD := by
  apply getCellState_of_len_le n _ p (by omega) h2
  rw [buildGrid_length]
  have hmul : (n : Int) * n ≤ p.1 * n :=
    mul_le_mul_of_nonneg_right h1 (by positivity)
  push_cast
  nlinarith

/-- The state of each output coordinate of a generation step is a function
of the OLD buffer only: the step reads `buffer` and writes a fresh grid. -/
theorem getCellState_gameOfLife (n : Nat) (buffer : List Vertex) (x y : Nat)
    (hx : x < n) (hy : y < n) :
    getCellState n (gameOfLife n buffer) ((x : Int), (y : Int))
      = nextState (getCellState n buffer ((x : Int), (y : Int)))
          (countAliveNeighbours n buffer (x : Int) (y : Int)) := by
  rw [gameOfLife_eq_buildGrid]
  exact getCellState_buildGrid n _ x y hx hy

/-- C1: the generation step (GameOfLife) computes the new state of every
coordinate purely from the old grid snapshot.  Formally: the state of the
output buffer at every in-range coordinate equals the transition rule
applied to the OLD buffer's state and the neighbour count computed from
the OLD buffer — and the fully-built fresh output buffer (of the complete
`n * n * 4` size) is what replaces the input.  Since each output
coordinate is thus a function of the old snapshot alone, the result does
not depend on the iteration order over coordinates. -/
theorem gameOfLife_pure_snapshot_step (n : Nat) (buffer : List Vertex) (x y : Nat)
    (hx : x < n) (hy : y < n) :
    getCellState n (gameOfLife n buffer) ((x : Int), (y : Int))
      = nextState (getCellState n buffer ((x : Int), (y : Int)))
          (countAliveNeighbours n buffer (x : Int) (y : Int))
    ∧ (gameOfLife n buffer).length = n * n * 4 :=
  ⟨getCellState_gameOfLife n buffer x y hx hy,
   by rw [gameOfLife_eq_buildGrid]; exact buildGrid_length n _⟩

theorem gameOfLife_pure_snapshot_step_witness :
    (0 : Nat) < 1
    ∧ (getCellState 1 (gameOfLife 1 []) (((0 : Nat) : Int), ((0 : Nat) : Int))
        = nextState (getCellState 1 [] (((0 : Nat) : Int), ((0 : Nat) : Int)))
            (countAliveNeighbours 1 [] ((0 : Nat) : Int) ((0 : Nat) : Int))
       ∧ (gameOfLife 1 ([] : List Vertex)).length = 1 * 1 * 4) :=
  ⟨by decide, gameOfLife_pure_snapshot_step 1 [] 0 0 (by decide) (by decide)⟩

theorem nextState_eq_specLifeRule (s : State) (k : Nat) :
    nextState s k = specLifeRule s k := by
  cases s <;> simp only [nextState, specLifeRule] <;> split_ifs <;> first | rfl | omega

/-- C4: for every coordinate, the generation step writes the new state
according to the standard Game of Life rule applied to the current state
and the alive-neighbour count computed from the old grid: an ALIVE cell
survives exactly when the count is 2 or 3, a DEAD cell is born exactly
when the count is 3. -/
theorem gameOfLife_standard_rule (n : Nat) (buffer : List Vertex) (x y : Nat)
    (hx : x < n) (hy : y < n) :
    getCellState n (gameOfLife n buffer) ((x : Int), (y : Int))
      = specLifeRule (getCellState n buffer ((x : Int), (y : Int)))
          (countAliveNeighbours n buffer (x : Int) (y : Int)) := by
  rw [getCellState_gameOfLife n buffer x y hx hy, nextState_eq_specLifeRule]

theorem gameOfLife_standard_rule_witness :
    (0 : Nat) < 1
    ∧ getCellState 1 (gameOfLife 1 []) (((0 : Nat) : Int), ((0 : Nat) : Int))
        = specLifeRule (getCellState 1 [] (((0 : Nat) : Int), ((0 : Nat) : Int)))
            (countAliveNeighbours 1 [] ((0 : Nat) : Int) ((0 : Nat) : Int)) :=
  ⟨by decide, gameOfLife_standard_rule 1 [] 0 0 (by decide) (by decide)⟩

/-- C2: failing-input evaluation.  At the program's grid size (250), on the
all-ALIVE grid buffer, reading the out-of-bounds coordinate `(0, 250)`
(`y = gridSize`) returns ALIVE, not DEAD: the source checks only
`index < buffer.size()`, and the flat index `(0 * 250 + 250) * 4 = 1000`
is the first vertex of cell `(1, 0)` — a wraparound into the next column
that the specification's boundary policy excludes. -/
theorem getCellState_out_of_bounds_reads_alive :
    getCellState gridSize (buildGrid gridSize (fun _ _ => State.ALIVE))
      ((0 : Int), (250 : Int)) = State.ALIVE := by
  have h := getCellState_buildGrid_alias 250 (fun _ _ => State.ALIVE) 0 (by norm_num)
  simpa [gridSize] using h

/-- C3: failing-input evaluation.  At the program's grid size, on the
all-ALIVE grid, the corner cell `(0, 249)` is counted as having FIVE alive
neighbours, not the three the specification's boundary policy dictates:
its out-of-bounds neighbours `(0, 250)` and `(1, 250)` alias the in-range
cells `(1, 0)` and `(2, 0)` and contribute two phantom ALIVE reads. -/
theorem corner_cell_counts_five_neighbours :
    countAliveNeighbours gridSize (buildGrid gridSize (fun _ _ => State.ALIVE))
      (0 : Int) (249 : Int) = 5 := by
  show countAliveNeighbours 250 (buildGrid 250 (fun _ _ => State.ALIVE)) 0 249 = 5
  have h1 : getCellState 250 (buildGrid 250 (fun _ _ => State.ALIVE))
      ((0 : Int) + -1, (249 : Int) + -1) = State.DEAD :=
    getCellState_neg _ _ _ (by norm_num)
  have h2 : getCellState 250 (buildGrid 250 (fun _ _ => State.ALIVE))
      ((0 : Int) + -1, (249 : Int) + 0) = State.DEAD :=
    getCellState_neg _ _ _ (by norm_num)
  have h3 : getCellState 250 (buildGrid 250 (fun _ _ => State.ALIVE))
      ((0 : Int) + -1, (249 : Int) + 1) = State.DEAD :=
    getCellState_neg _ _ _ (by norm_num)
  have h4 : getCellState 250 (buildGrid 250 (fun _ _ => State.ALIVE))
      ((0 : Int) + 0, (249 : Int) + -1) = State.ALIVE := by
    have h := getCellState_buildGrid_flat 250 (fun _ _ => State.ALIVE) 0 248
      ((0 : Int) + 0, (249 : Int) + -1) (by norm_num) (by norm_num) (by norm_num)
      (by norm_num) (by norm_num)
    simpa using h
  have h6 : getCellState 250 (buildGrid 250 (fun _ _ => State.ALIVE))
      ((0 : Int) + 0, (249 : Int) + 1) = State.ALIVE := by
    have h := getCellState_buildGrid_flat 250 (fun _ _ => State.ALIVE) 1 0
      ((0 : Int) + 0, (249 : Int) + 1) (by norm_num) (by norm_num) (by norm_num)
      (by norm_num) (by norm_num)
    simpa using h
  have h7 : getCellState 250 (buildGrid 250 (fun _ _ => State.ALIVE))
      ((0 : Int) + 1, (249 : Int) + -1) = State.ALIVE := by
    have h := getCellState_buildGrid_flat 250 (fun _ _ => State.ALIVE) 1 248
      ((0 : Int) + 1, (249 : Int) + -1) (by norm_num) (by norm_num) (by norm_num)
      (by norm_num) (by norm_num)
    simpa using h
  have h8 : getCellState 250 (buildGrid 250 (fun _ _ => State.ALIVE))
      ((0 : Int) + 1, (249 : Int) + 0) = State.ALIVE := by
    have h := getCellState_buildGrid_flat 250 (fun _ _ => State.ALIVE) 1 249
      ((0 : Int) + 1, (249 : Int) + 0) (by norm_num) (by norm_num) (by norm_num)
      (by norm_num) (by norm_num)
    simpa using h
  have h9 : getCellState 250 (buildGrid 250 (fun _ _ => State.ALIVE))
      ((0 : Int) + 1, (249 : Int) + 1) = State.ALIVE := by
    have h := getCellState_buildGrid_flat 250 (fun _ _ => State.ALIVE) 2 0
      ((0 : Int) + 1, (249 : Int) + 1) (by norm_num) (by norm_num) (by norm_num)
      (by norm_num) (by norm_num)
    simpa using h
  simp only [countAliveNeighbours, List.foldl_cons, List.foldl_nil,
    h1, h2, h3, h4, h6, h7, h8, h9]
  decide

/-- The first vertex written by the quad-write loop. -/
theorem writeQuad_get?_head (l : List Vertex) (i : Nat) (c : Vec3) (h : i < l.length) :
    (writeQuad l i c).get? i
      = some { l.getD i ⟨(0, 0), colourBlack⟩ with colour := c } := by
  simp only [writeQuad, show List.range 4 = [0, 1, 2, 3] from rfl,
    List.foldl_cons, List.foldl_nil]
  rw [List.get?_set_ne _ _ (by omega), List.get?_set_ne _ _ (by omega),
    List.get?_set_ne _ _ (by omega)]
  have hi : i + 0 = i := by omega
  rw [hi]
  rw [List.get?_set_eq_of_lt _ h]

/-- C6: failing-input evaluation.  At the program's grid size, writing
ALIVE at the out-of-bounds coordinate `(0, 250)` (`y = gridSize`) is NOT a
no-op: its flat index `1000` passes the `index < buffer.size()` check and
the write lands on the four vertices of cell `(1, 0)`, changing the
buffer.  (For a coordinate whose flat index value is negative the source's
float-to-unsigned conversion is undefined behaviour, so not even the
negative half of the claim is a guaranteed no-op; the definite
counterexample here uses a non-negative index where the C++ semantics are
exact.) -/
theorem setCellState_out_of_bounds_mutates :
    setCellState gridSize (buildGrid gridSize (fun _ _ => State.DEAD))
        ⟨((0 : Int), (250 : Int)), State.ALIVE⟩
      ≠ buildGrid gridSize (fun _ _ => State.DEAD) := by
  show setCellState 250 (buildGrid 250 (fun _ _ => State.DEAD))
        ⟨((0 : Int), (250 : Int)), State.ALIVE⟩
      ≠ buildGrid 250 (fun _ _ => State.DEAD)
  have hBlen : (buildGrid 250 (fun _ _ => State.DEAD)).length = 250000 := by
    rw [buildGrid_length]
  have hset : setCellState 250 (buildGrid 250 (fun _ _ => State.DEAD))
        ⟨((0 : Int), (250 : Int)), State.ALIVE⟩
      = writeQuad (buildGrid 250 (fun _ _ => State.DEAD)) 1000 colourWhite := by
    simp only [setCellState]
    rw [if_pos]
    · norm_num
      rfl
    · constructor
      · norm_num
      · rw [hBlen]; norm_num
  have hL : (setCellState 250 (buildGrid 250 (fun _ _ => State.DEAD))
        ⟨((0 : Int), (250 : Int)), State.ALIVE⟩).get? 1000
      = some { (buildGrid 250 (fun _ _ => State.DEAD)).getD 1000 ⟨(0, 0), colourBlack⟩
               with colour := colourWhite } := by
    rw [hset]
    exact writeQuad_get?_head _ 1000 colourWhite (by rw [hBlen]; norm_num)
  have hR : ((buildGrid 250 (fun _ _ => State.DEAD)).get? 1000).map Vertex.colour
      = some colourBlack := by
    have h := buildGrid_get? 250 (fun _ _ => State.DEAD) 1 0 0 (by norm_num) (by norm_num)
      (by norm_num)
    norm_num at h
    rw [List.get?_eq_getElem?, h]
    rfl
  intro heq
  have hc := congrArg (fun l => (l.get? 1000).map Vertex.colour) heq
  simp only [hL] at hc
  rw [hR] at hc
  simp only [Option.map_some'] at hc
  have : colourWhite = colourBlack := by
    have := Option.some.inj hc
    simpa using this
  exact absurd this (by decide)

/-- C7: failing-input evaluation.  The source calls
`std::srand(std::time(nullptr))` INSIDE `GenerateRandomCells`, so the
generator is re-seeded on EVERY random initialization, not once per
process.  Consequently two restarts within the same second (same
`timeNow`) produce the identical grid: the second restart's incoming
generator state — whatever the first left behind — is discarded.  This
contradicts the claim (and the spec's stated requirement) for every
generator transition function `step`. -/
theorem generateRandomCells_reseeds_every_call (step : Nat → Nat × Nat)
    (timeNow n : Nat) (buffer : List Vertex) (rngState : Nat) :
    (restartGame step timeNow n
        (restartGame step timeNow n buffer rngState).1
        (restartGame step timeNow n buffer rngState).2).1
      = (restartGame step timeNow n buffer rngState).1 := rfl

/-- C8: restart discards the current grid entirely: with the same time
seed and the same generator, restarting from ANY two prior buffer
contents (and any two prior generator states would behave alike as well,
see C7) produces identical resulting buffers — the result depends only on
the randomness, not on any cell of the previous grid. -/
theorem restartGame_independent_of_previous_grid (step : Nat → Nat × Nat)
    (timeNow n : Nat) (b1 b2 : List Vertex) (rngState : Nat) :
    restartGame step timeNow n b1 rngState = restartGame step timeNow n b2 rngState := rfl

theorem randState_add (step : Nat → Nat × Nat) (s : Nat) :
    ∀ a b : Nat, randState step (randState step s a) b = randState step s (a + b) := by
  intro a b
  induction b with
  | zero => rfl
  | succ b ih => simp only [randState, ih]; rfl

theorem randVal_add (step : Nat → Nat × Nat) (s a b : Nat) :
    randVal step (randState step s a) b = randVal step s (a + b) := by
  simp only [randVal, randState_add]

/-- One row of the random-generation fold: appending `m` cells of column
`x`, drawing sequentially from state `σ`. -/
theorem generateRandomCells_row (step : Nat → Nat × Nat) (n x : Nat) :
    ∀ (m : Nat) (buf : List Vertex) (σ : Nat),
      (List.range m).foldl
        (fun (acc2 : List Vertex × Nat) (y : Nat) =>
          (acc2.1 ++ createCell n ⟨((x : Int), (y : Int)), randCellState (step acc2.2).1⟩,
           (step acc2.2).2))
        (buf, σ)
      = (buf ++ (List.range m).flatMap
            (fun y => createCell n ⟨((x : Int), (y : Int)), randCellState (randVal step σ y)⟩),
         randState step σ m) := by
  intro m
  induction m with
  | zero => intro buf σ; simp [randState]
  | succ m ih =>
    intro buf σ
    rw [List.range_succ, List.foldl_append, ih buf σ]
    simp only [List.foldl_cons, List.foldl_nil, List.flatMap_append, List.flatMap_cons,
      List.flatMap_nil, List.append_nil, List.append_assoc]
    rfl

/-- The whole random-generation fold: `M` columns of `n` cells. -/
theorem generateRandomCells_cols (step : Nat → Nat × Nat) (n : Nat) :
    ∀ (M : Nat) (buf : List Vertex) (σ : Nat),
      (List.range M).foldl
        (fun (acc : List Vertex × Nat) (x : Nat) =>
          (List.range n).foldl
            (fun (acc2 : List Vertex × Nat) (y : Nat) =>
              (acc2.1 ++ createCell n ⟨((x : Int), (y : Int)), randCellState (step acc2.2).1⟩,
               (step acc2.2).2))
            acc)
        (buf, σ)
      = (buf ++ (List.range M).flatMap
            (fun x => (List.range n).flatMap
              (fun y => createCell n
                ⟨((x : Int), (y : Int)), randCellState (randVal step σ (x * n + y))⟩)),
         randState step σ (M * n)) := by
  intro M
  induction M with
  | zero => intro buf σ; simp [randState]
  | succ M ih =>
    intro buf σ
    rw [List.range_succ, List.foldl_append, ih buf σ]
    simp only [List.foldl_cons, List.foldl_nil]
    rw [generateRandomCells_row step n M n]
    rw [List.flatMap_append]
    simp only [List.flatMap_cons, List.flatMap_nil, List.append_nil, List.append_assoc]
    rw [Prod.mk.injEq]
    refine ⟨?_, ?_⟩
    · have hy : ∀ y : Nat, randVal step (randState step σ (M * n)) y
          = randVal step σ (M * n + y) := fun y => randVal_add step σ (M * n) y
      simp only [hy]
    · rw [randState_add]
      congr 1
      ring

/-- `GenerateRandomCells` appends exactly the grid buffer of the drawn
states to the incoming buffer, and leaves the generator advanced by
`n * n` draws from the time seed. -/
theorem generateRandomCells_eq (step : Nat → Nat × Nat) (timeNow n : Nat)
    (buffer : List Vertex) (rngState : Nat) :
    generateRandomCells step timeNow n buffer rngState
      = (buffer ++ buildGrid n (fun x y => randCellState (randVal step timeNow (x * n + y))),
         randState step timeNow (n * n)) := by
  simp only [generateRandomCells, buildGrid]
  exact generateRandomCells_cols step n n buffer timeNow

/-- Every 4-vertex quad of a grid buffer is uniformly coloured with the
colour of one cell state. -/
theorem buildGrid_quad (n : Nat) (f : Nat → Nat → State) (i : Nat) (hi : i < n * n) :
    ∃ st : State, ∀ j, j < 4 →
      ((buildGrid n f).get? (4 * i + j)).map Vertex.colour = some (cellColour st) := by
  have hn : 0 < n := by
    rcases Nat.eq_zero_or_pos n with h | h
    · subst h; omega
    · exact h
  have hx : i / n < n := by
    rw [Nat.div_lt_iff_lt_mul hn]
    exact hi
  have hy : i % n < n := Nat.mod_lt _ hn
  have hxy : (i / n) * n + i % n = i := by
    rw [Nat.mul_comm]
    exact Nat.div_add_mod i n
  refine ⟨f (i / n) (i % n), fun j hj => ?_⟩
  have hidx : 4 * i + j = ((i / n) * n + i % n) * 4 + j := by rw [hxy]; ring
  rw [hidx, buildGrid_get? n f (i / n) (i % n) j hx hy hj]
  interval_cases j <;> rfl

/-- C10: buffer-shape invariant.  `GenerateRandomCells` appends exactly
`n * n` cells of 4 vertices each; `GameOfLife` always produces an output
buffer of exactly `n * n * 4` vertices regardless of the input buffer's
size; and in both produced buffers every cell's 4-vertex quad carries one
uniform cell-state colour (white for ALIVE, black for DEAD — the
`cellColour` projection), so the single-vertex read in `GetCellState` is
representative of the whole cell. -/
theorem buffer_shape_invariant (step : Nat → Nat × Nat) (timeNow n : Nat)
    (buffer rbuf : List Vertex) (rngState : Nat) :
    (generateRandomCells step timeNow n buffer rngState).1.length
        = buffer.length + n * n * 4
    ∧ (gameOfLife n rbuf).length = n * n * 4
    ∧ (∀ i, i < n * n → ∃ st : State, ∀ j, j < 4 →
        ((gameOfLife n rbuf).get? (4 * i + j)).map Vertex.colour = some (cellColour st))
    ∧ (∀ i, i < n * n → ∃ st : State, ∀ j, j < 4 →
        ((generateRandomCells step timeNow n [] rngState).1.get? (4 * i + j)).map
            Vertex.colour = some (cellColour st)) := by
  refine ⟨?_, ?_, ?_, ?_⟩
  · rw [generateRandomCells_eq]
    simp [buildGrid_length]
  · rw [gameOfLife_eq_buildGrid, buildGrid_length]
  · intro i hi
    rw [gameOfLife_eq_buildGrid]
    exact buildGrid_quad n _ i hi
  · intro i hi
    rw [generateRandomCells_eq]
    simp only [List.nil_append]
    exact buildGrid_quad n _ i hi

theorem buffer_shape_invariant_witness :
    (0 : Nat) < 1 * 1
    ∧ ∃ st : State, ∀ j, j < 4 →
        ((gameOfLife 1 []).get? (4 * 0 + j)).map Vertex.colour = some (cellColour st) :=
  ⟨by decide,
   (buffer_shape_invariant (fun s => (s, s)) 0 1 [] [] 0).2.2.1 0 (by decide)⟩

theorem range_flatMap_congr {β : Type} (m : Nat) (f g : Nat → List β)
    (h : ∀ i, i < m → f i = g i) :
    (List.range m).flatMap f = (List.range m).flatMap g := by
  induction m with
  | zero => rfl
  | succ m ih =>
    rw [List.range_succ, List.flatMap_append, List.flatMap_append,
      ih (fun i hi => h i (by omega))]
    simp [h m (by omega)]

theorem buildGrid_congr (n : Nat) (f g : Nat → Nat → State)
    (h : ∀ x y, x < n → y < n → f x y = g x y) : buildGrid n f = buildGrid n g := by
  unfold buildGrid
  exact range_flatMap_congr n _ _ (fun x hx =>
    range_flatMap_congr n _ _ (fun y hy => by rw [h x y hx hy]))

/-- Every read the generation step performs on the horizontal-blinker grid,
including the out-of-bounds ones at the rim (`-1 ≤ a, b ≤ n`): the result
is ALIVE exactly on the three blinker cells.  The interiority bounds keep
the wrapped reads at `b = n` (which alias cells of row 0) DEAD. -/
theorem blinkerHGrid_read (n cx cy : Nat) (h1 : 2 ≤ cx) (h2 : cx + 2 < n)
    (h3 : 2 ≤ cy) (h4 : cy + 2 < n) (a b : Int)
    (ha1 : -1 ≤ a) (ha2 : a ≤ n) (hb1 : -1 ≤ b) (hb2 : b ≤ n) :
    getCellState n (blinkerHGrid n cx cy) (a, b)
      = if b = (cy : Int) ∧ (a = (cx : Int) - 1 ∨ a = (cx : Int) ∨ a = (cx : Int) + 1)
        then State.ALIVE else State.DEAD := by
  unfold blinkerHGrid
  by_cases hneg : a < 0 ∨ b < 0
  · rw [getCellState_neg n _ (a, b) hneg, if_neg (by omega)]
  push_neg at hneg
  obtain ⟨ha0, hb0⟩ := hneg
  by_cases han : (n : Int) ≤ a
  · rw [getCellState_buildGrid_xhigh n _ (a, b) han hb0, if_neg (by omega)]
  push_neg at han
  lift a to Nat using ha0 with a'
  by_cases hbn : (n : Int) ≤ b
  · have hbn' : b = (n : Int) := le_antisymm hb2 hbn
    subst hbn'
    by_cases hedge : a' + 1 < n
    · rw [getCellState_buildGrid_alias n _ a' hedge, if_neg (by omega)]
      unfold blinkerHState
      rw [if_neg (by omega)]
    · have hdead := getCellState_of_len_le n (buildGrid n (blinkerHState cx cy))
        ((a' : Int), (n : Int)) (by positivity) (by positivity) (by
          rw [buildGrid_length]
          apply le_of_eq
          show ((n * n * 4 : Nat) : Int) = ((a' : Int) * (n : Int) + (n : Int)) * 4
          have he : (a' : Int) = (n : Int) - 1 := by omega
          rw [he]
          push_cast
          ring)
      rw [hdead, if_neg (by omega)]
  push_neg at hbn
  lift b to Nat using hb0 with b'
  have ha'n : a' < n := by omega
  have hb'n : b' < n := by omega
  rw [getCellState_buildGrid n _ a' b' ha'n hb'n]
  unfold blinkerHState
  by_cases hc : (b' : Int) = (cy : Int)
      ∧ ((a' : Int) = (cx : Int) - 1 ∨ (a' : Int) = (cx : Int) ∨ (a' : Int) = (cx : Int) + 1)
  · rw [if_pos (by omega), if_pos hc]
  · rw [if_neg (by omega), if_neg hc]

/-- The mirrored read lemma for the vertical-blinker grid. -/
theorem blinkerVGrid_read (n cx cy : Nat) (h1 : 2 ≤ cx) (h2 : cx + 2 < n)
    (h3 : 2 ≤ cy) (h4 : cy + 2 < n) (a b : Int)
    (ha1 : -1 ≤ a) (ha2 : a ≤ n) (hb1 : -1 ≤ b) (hb2 : b ≤ n) :
    getCellState n (blinkerVGrid n cx cy) (a, b)
      = if a = (cx : Int) ∧ (b = (cy : Int) - 1 ∨ b = (cy : Int) ∨ b = (cy : Int) + 1)
        then State.ALIVE else State.DEAD := by
  unfold blinkerVGrid
  by_cases hneg : a < 0 ∨ b < 0
  · rw [getCellState_neg n _ (a, b) hneg, if_neg (by omega)]
  push_neg at hneg
  obtain ⟨ha0, hb0⟩ := hneg
  by_cases han : (n : Int) ≤ a
  · rw [getCellState_buildGrid_xhigh n _ (a, b) han hb0, if_neg (by omega)]
  push_neg at han
  lift a to Nat using ha0 with a'
  by_cases hbn : (n : Int) ≤ b
  · have hbn' : b = (n : Int) := le_antisymm hb2 hbn
    subst hbn'
    by_cases hedge : a' + 1 < n
    · rw [getCellState_buildGrid_alias n _ a' hedge, if_neg (by omega)]
      unfold blinkerVState
      rw [if_neg (by omega)]
    · have hdead := getCellState_of_len_le n (buildGrid n (blinkerVState cx cy))
        ((a' : Int), (n : Int)) (by positivity) (by positivity) (by
          rw [buildGrid_length]
          apply le_of_eq
          show ((n * n * 4 : Nat) : Int) = ((a' : Int) * (n : Int) + (n : Int)) * 4
          have he : (a' : Int) = (n : Int) - 1 := by omega
          rw [he]
          push_cast
          ring)
      rw [hdead, if_neg (by omega)]
  push_neg at hbn
  lift b to Nat using hb0 with b'
  have ha'n : a' < n := by omega
  have hb'n : b' < n := by omega
  rw [getCellState_buildGrid n _ a' b' ha'n hb'n]
  unfold blinkerVState
  by_cases hc : (a' : Int) = (cx : Int)
      ∧ ((b' : Int) = (cy : Int) - 1 ∨ (b' : Int) = (cy : Int) ∨ (b' : Int) = (cy : Int) + 1)
  · rw [if_pos (by omega), if_pos hc]
  · rw [if_neg (by omega), if_neg hc]

theorem ite_state_eq_alive (c : Prop) [Decidable c] :
    ((if c then State.ALIVE else State.DEAD) = State.ALIVE) ↔ c := by
  split_ifs with h
  · simp [h]
  · simp [h]

/-- The neighbour-count loop written out as the sum of its eight reads
(the skipped centre read contributes nothing). -/
theorem count_unfold (n : Nat) (buffer : List Vertex) (x y : Int) :
    countAliveNeighbours n buffer x y
      = (if getCellState n buffer (x + -1, y + -1) = State.ALIVE then 1 else 0)
        + (if getCellState n buffer (x + -1, y + 0) = State.ALIVE then 1 else 0)
        + (if getCellState n buffer (x + -1, y + 1) = State.ALIVE then 1 else 0)
        + (if getCellState n buffer (x + 0, y + -1) = State.ALIVE then 1 else 0)
        + (if getCellState n buffer (x + 0, y + 1) = State.ALIVE then 1 else 0)
        + (if getCellState n buffer (x + 1, y + -1) = State.ALIVE then 1 else 0)
        + (if getCellState n buffer (x + 1, y + 0) = State.ALIVE then 1 else 0)
        + (if getCellState n buffer (x + 1, y + 1) = State.ALIVE then 1 else 0) := by
  have hw : ∀ (nX : Int) (acc : Nat),
      ([-1, 0, 1] : List Int).foldl
        (fun acc2 nY =>
          if nX ≠ 0 ∨ nY ≠ 0 then
            if getCellState n buffer (x + nX, y + nY) = State.ALIVE then acc2 + 1 else acc2
          else acc2) acc
      = acc + ((if getCellState n buffer (x + nX, y + -1) = State.ALIVE then 1 else 0)
          + ((if nX ≠ 0 then
                (if getCellState n buffer (x + nX, y + 0) = State.ALIVE then 1 else 0)
              else 0)
          + (if getCellState n buffer (x + nX, y + 1) = State.ALIVE then 1 else 0))) := by
    intro nX acc
    simp only [List.foldl_cons, List.foldl_nil]
    split_ifs <;> omega
  simp only [countAliveNeighbours, hw]
  simp only [List.foldl_cons, List.foldl_nil]
  rw [if_pos (by norm_num : ((-1 : Int)) ≠ 0), if_neg (by norm_num : ¬((0 : Int) ≠ 0)),
    if_pos (by norm_num : ((1 : Int)) ≠ 0)]
  generalize (if getCellState n buffer (x + -1, y + -1) = State.ALIVE then (1 : Nat) else 0) = a1
  generalize (if getCellState n buffer (x + -1, y + 0) = State.ALIVE then (1 : Nat) else 0) = a2
  generalize (if getCellState n buffer (x + -1, y + 1) = State.ALIVE then (1 : Nat) else 0) = a3
  generalize (if getCellState n buffer (x + 0, y + -1) = State.ALIVE then (1 : Nat) else 0) = a4
  generalize (if getCellState n buffer (x + 0, y + 1) = State.ALIVE then (1 : Nat) else 0) = a5
  generalize (if getCellState n buffer (x + 1, y + -1) = State.ALIVE then (1 : Nat) else 0) = a6
  generalize (if getCellState n buffer (x + 1, y + 0) = State.ALIVE then (1 : Nat) else 0) = a7
  generalize (if getCellState n buffer (x + 1, y + 1) = State.ALIVE then (1 : Nat) else 0) = a8
  omega

set_option maxHeartbeats 4000000 in
/-- One generation applied pointwise to the horizontal blinker yields the
vertical blinker's state function. -/
theorem blinkerH_step (n cx cy : Nat) (h1 : 2 ≤ cx) (h2 : cx + 2 < n)
    (h3 : 2 ≤ cy) (h4 : cy + 2 < n) (x y : Nat) (hx : x < n) (hy : y < n) :
    nextState (getCellState n (blinkerHGrid n cx cy) ((x : Int), (y : Int)))
        (countAliveNeighbours n (blinkerHGrid n cx cy) (x : Int) (y : Int))
      = blinkerVState cx cy x y := by
  have R := blinkerHGrid_read n cx cy h1 h2 h3 h4
  have e0 := R ((x : Int)) ((y : Int)) (by omega) (by omega) (by omega) (by omega)
  have e1 := R ((x : Int) + -1) ((y : Int) + -1) (by omega) (by omega) (by omega) (by omega)
  have e2 := R ((x : Int) + -1) ((y : Int) + 0) (by omega) (by omega) (by omega) (by omega)
  have e3 := R ((x : Int) + -1) ((y : Int) + 1) (by omega) (by omega) (by omega) (by omega)
  have e4 := R ((x : Int) + 0) ((y : Int) + -1) (by omega) (by omega) (by omega) (by omega)
  have e5 := R ((x : Int) + 0) ((y : Int) + 1) (by omega) (by omega) (by omega) (by omega)
  have e6 := R ((x : Int) + 1) ((y : Int) + -1) (by omega) (by omega) (by omega) (by omega)
  have e7 := R ((x : Int) + 1) ((y : Int) + 0) (by omega) (by omega) (by omega) (by omega)
  have e8 := R ((x : Int) + 1) ((y : Int) + 1) (by omega) (by omega) (by omega) (by omega)
  rw [count_unfold]
  rw [e1, e2, e3, e4, e5, e6, e7, e8, e0]
  simp only [ite_state_eq_alive, blinkerVState]
  split_ifs <;> first | rfl | (exfalso; omega)

set_option maxHeartbeats 4000000 in
/-- One generation applied pointwise to the vertical blinker yields the
horizontal blinker's state function. -/
theorem blinkerV_step (n cx cy : Nat) (h1 : 2 ≤ cx) (h2 : cx + 2 < n)
    (h3 : 2 ≤ cy) (h4 : cy + 2 < n) (x y : Nat) (hx : x < n) (hy : y < n) :
    nextState (getCellState n (blinkerVGrid n cx cy) ((x : Int), (y : Int)))
        (countAliveNeighbours n (blinkerVGrid n cx cy) (x : Int) (y : Int))
      = blinkerHState cx cy x y := by
  have R := blinkerVGrid_read n cx cy h1 h2 h3 h4
  have e0 := R ((x : Int)) ((y : Int)) (by omega) (by omega) (by omega) (by omega)
  have e1 := R ((x : Int) + -1) ((y : Int) + -1) (by omega) (by omega) (by omega) (by omega)
  have e2 := R ((x : Int) + -1) ((y : Int) + 0) (by omega) (by omega) (by omega) (by omega)
  have e3 := R ((x : Int) + -1) ((y : Int) + 1) (by omega) (by omega) (by omega) (by omega)
  have e4 := R ((x : Int) + 0) ((y : Int) + -1) (by omega) (by omega) (by omega) (by omega)
  have e5 := R ((x : Int) + 0) ((y : Int) + 1) (by omega) (by omega) (by omega) (by omega)
  have e6 := R ((x : Int) + 1) ((y : Int) + -1) (by omega) (by omega) (by omega) (by omega)
  have e7 := R ((x : Int) + 1) ((y : Int) + 0) (by omega) (by omega) (by omega) (by omega)
  have e8 := R ((x : Int) + 1) ((y : Int) + 1) (by omega) (by omega) (by omega) (by omega)
  rw [count_unfold]
  rw [e1, e2, e3, e4, e5, e6, e7, e8, e0]
  simp only [ite_state_eq_alive, blinkerHState]
  split_ifs <;> first | rfl | (exfalso; omega)

theorem gameOfLife_blinkerH (n cx cy : Nat) (h1 : 2 ≤ cx) (h2 : cx + 2 < n)
    (h3 : 2 ≤ cy) (h4 : cy + 2 < n) :
    gameOfLife n (blinkerHGrid n cx cy) = blinkerVGrid n cx cy := by
  rw [gameOfLife_eq_buildGrid]
  unfold blinkerVGrid
  exact buildGrid_congr n _ _ (fun x y hx hy => blinkerH_step n cx cy h1 h2 h3 h4 x y hx hy)

theorem gameOfLife_blinkerV (n cx cy : Nat) (h1 : 2 ≤ cx) (h2 : cx + 2 < n)
    (h3 : 2 ≤ cy) (h4 : cy + 2 < n) :
    gameOfLife n (blinkerVGrid n cx cy) = blinkerHGrid n cx cy := by
  rw [gameOfLife_eq_buildGrid]
  unfold blinkerHGrid
  exact buildGrid_congr n _ _ (fun x y hx hy => blinkerV_step n cx cy h1 h2 h3 h4 x y hx hy)

/-- C5: blinker oscillation.  A grid containing exactly a horizontal
3-cell blinker away from the edges (centre `(cx, cy)` at distance ≥ 2 from
every edge, so that neither phase touches the rim) becomes the vertical
3-cell line centred on the same middle cell after one generation, and
returns exactly to the original horizontal line after two. -/
theorem blinker_oscillates (n cx cy : Nat) (h1 : 2 ≤ cx) (h2 : cx + 2 < n)
    (h3 : 2 ≤ cy) (h4 : cy + 2 < n) :
    gameOfLife n (blinkerHGrid n cx cy) = blinkerVGrid n cx cy
    ∧ gameOfLife n (gameOfLife n (blinkerHGrid n cx cy)) = blinkerHGrid n cx cy := by
  have hHV := gameOfLife_blinkerH n cx cy h1 h2 h3 h4
  have hVH := gameOfLife_blinkerV n cx cy h1 h2 h3 h4
  exact ⟨hHV, by rw [hHV, hVH]⟩

theorem blinker_oscillates_witness :
    ((2 : Nat) ≤ 10 ∧ 10 + 2 < 250 ∧ (2 : Nat) ≤ 20 ∧ 20 + 2 < 250)
    ∧ (gameOfLife 250 (blinkerHGrid 250 10 20) = blinkerVGrid 250 10 20
       ∧ gameOfLife 250 (gameOfLife 250 (blinkerHGrid 250 10 20)) = blinkerHGrid 250 10 20) :=
  ⟨by decide, blinker_oscillates 250 10 20 (by decide) (by decide) (by decide) (by decide)⟩

end Glautomata
